import Mathlib

/-!
# Verification of the Reusely pricing scripts

Shallow embedding of `src/push-prices.js` (the standalone Node push script
and the spreadsheet-integrated Apps Script variant concatenated in that
file), together with proofs about the claims of the specification.

Modelling conventions:
* Spreadsheet cell values are modelled by `Cell` (empty cell / number /
  string).  JavaScript numbers are modelled by `ℚ` with `Option ℚ` for
  `NaN` (`none` is `NaN`).
* JavaScript objects used as string-keyed maps are modelled by association
  lists in which the *most recent* binding is at the head; `kvLookup`
  returns the head-most binding, which matches JS property overwrite
  semantics.
* `Number(...)` on strings is modelled by `jsStrNum`, covering plain
  decimal literals (optional sign, digits, optional fraction); exponent
  and hexadecimal forms are not modelled and parse as `NaN`.
* Regular-expression operations of the source are modelled by dedicated
  scanners implementing the leftmost-match semantics of the concrete
  patterns appearing in the source.
-/

set_option maxRecDepth 1000000

namespace ReuselyPricing

/-! ## JavaScript value model -/

/-- A spreadsheet cell value: an empty cell (`""`/`null`), a number, or a
(non-empty, in practice) string. -/
inductive Cell where
  | blank : Cell
  | num : ℚ → Cell
  | str : String → Cell
deriving DecidableEq, Repr

/-- Remove leading and trailing whitespace from a character list. -/
def trimChars (l : List Char) : List Char :=
  ((l.dropWhile Char.isWhitespace).reverse.dropWhile Char.isWhitespace).reverse

/-- JS `String.prototype.trim()` (structurally recursive model). -/
def jsTrim (s : String) : String := ⟨trimChars s.data⟩

/-- Digits to a natural number (`"128"` ↦ `128`). -/
def digitsVal (l : List Char) : ℕ :=
  l.foldl (fun n c => n * 10 + (c.toNat - 48)) 0

/-- Source `Number(s)` for a string `s`: JS trims whitespace, maps `""` to `0`,
and parses signed decimal literals; anything else is `NaN` (`none`).
Exponent/hex forms are not modelled (they would be parsed by JS but never
occur in the data the claims are about). -/
def jsStrNum (s : String) : Option ℚ :=
  let t := jsTrim s
  if t = "" then some 0
  else
    let (sign, u) : ℚ × List Char :=
      match t.data with
      | '-' :: r => (-1, r)
      | '+' :: r => (1, r)
      | l => (1, l)
    let ip := u.takeWhile Char.isDigit
    let rest := u.drop ip.length
    match rest with
    | [] => if ip = [] then none else some (sign * digitsVal ip)
    | '.' :: fr =>
      let fp := fr.takeWhile Char.isDigit
      if fr.drop fp.length ≠ [] then none
      else if ip = [] ∧ fp = [] then none
      else some (sign * ((digitsVal ip : ℚ) + (digitsVal fp : ℚ) / (10 ^ fp.length)))
    | _ => none

/-- Source `Number(v)` on a cell value; `none` models `NaN`.
`Number("") = 0`, `Number(null) = 0`. -/
def jsNum : Cell → Option ℚ
  | .blank => some 0
  | .num q => some q
  | .str s => jsStrNum s

/-- JS truthiness test (negated): `!v` for a cell value.
`""`, `null`/`undefined` and `0` are falsy. -/
def falsy : Cell → Bool
  | .blank => true
  | .num q => q = 0
  | .str s => s = ""

/-- JS number formatting `String(q)`; exact for integers (the only case
exercised by the source data). -/
def jsNumStr (q : ℚ) : String :=
  if q.den = 1 then toString q.num else toString q

/-- Source `String(v)` on a cell value. -/
def cellStr : Cell → String
  | .blank => ""
  | .num q => jsNumStr q
  | .str s => s

/-- Source `_norm(s)` from the source: `String(s||"").trim()`. -/
def _norm (c : Cell) : String :=
  if falsy c then "" else jsTrim (cellStr c)

/-- Source `Math.round(q)`: round half toward positive infinity. -/
def jsRound (q : ℚ) : ℤ := ⌊q + 1/2⌋

/-- Bridge for passing a nullable number back into JS code
(`null` behaves like the blank cell for the `==null` tests). -/
def optToCell : Option ℚ → Cell
  | none => .blank
  | some q => .num q

/-- The `(v===""||v==null) ? null : Number(v)` idiom combined with the
subsequent `NaN` test: `none` when the value is empty/`null`/`NaN`. -/
def jsNullableNum (c : Cell) : Option ℚ :=
  if c = .blank then none else jsNum c

@[simp] theorem jsNullableNum_blank : jsNullableNum .blank = none := rfl

@[simp] theorem jsNullableNum_num (q : ℚ) : jsNullableNum (.num q) = some q := rfl

@[simp] theorem jsNullableNum_str (s : String) :
    jsNullableNum (.str s) = jsStrNum s := rfl

/-! ## String utilities from the source (`_normalizeCarrier`, `_gbNormalize`,
`_cleanCatalogModelName_`, `_extractModelFromCatalog_`)

The regular expressions of the source are modelled by dedicated scanners:
`replaceFirstAux` (JS `String.replace` without the `g` flag: leftmost match
replaced) and `removeAllAux` (global replace by the empty string).  `.` in
the modelled patterns is taken to match every character (the inputs contain
no newlines). -/

/-- JS word character (`\w` = `[A-Za-z0-9_]`). -/
def isWordChar (c : Char) : Bool := c.isAlpha || c.isDigit || c = '_'

/-- Word boundary `\b` before a pattern starting with a word character:
start of string or a non-word character before the position. -/
def prevBoundary : Option Char → Bool
  | none => true
  | some p => !isWordChar p

/-- Word boundary `\b` after a pattern ending with a word character:
end of string or a non-word character at the position. -/
def nextBoundary : List Char → Bool
  | [] => true
  | c :: _ => !isWordChar c

/-- Case-insensitive literal match at the head (`/i`-matching of a
regex-escaped literal). -/
def ciStartsWith : List Char → List Char → Bool
  | [], _ => true
  | _ :: _, [] => false
  | p :: ps, c :: cs => (p.toLower = c.toLower) && ciStartsWith ps cs

/-- Case-sensitive substring containment (`String.prototype.includes`). -/
def containsSeq (pat : List Char) : List Char → Bool
  | [] => pat.isEmpty
  | c :: rest => pat.isPrefixOf (c :: rest) || containsSeq pat rest

/-- Source `s.includes(pat)`. -/
def jsIncludes (s pat : String) : Bool := containsSeq pat.data s.data

/-- Source `s.toLowerCase()` (ASCII, which covers all inputs of the source). -/
def jsToLower (s : String) : String := ⟨s.data.map Char.toLower⟩

/-- Source `s.toUpperCase()` (ASCII). -/
def jsToUpper (s : String) : String := ⟨s.data.map Char.toUpper⟩

/-- Remove every whitespace character (`.replace(/\s+/g,"")`). -/
def stripWs (l : List Char) : List Char := l.filter (fun c => !c.isWhitespace)

/-- Collapse runs of spaces to a single space (used after mapping every
whitespace character to a space, this models `.replace(/\s+/g," ")`). -/
def squeezeSp : List Char → List Char
  | [] => []
  | [a] => [a]
  | a :: b :: r =>
    if a = ' ' && b = ' ' then squeezeSp (b :: r) else a :: squeezeSp (b :: r)

/-- Source `.replace(/\s+/g," ")`. -/
def collapseWs (l : List Char) : List Char :=
  squeezeSp (l.map (fun c => if c.isWhitespace then ' ' else c))

/-- JS `String.replace` with a non-global regex: replace the leftmost match
by `repl`.  `recog prev l` returns the match length of the pattern at the
position whose preceding character is `prev` and whose remaining input is
`l`. -/
def replaceFirstAux (recog : Option Char → List Char → Option ℕ)
    (repl : List Char) : Option Char → List Char → List Char
  | prev, [] =>
    match recog prev [] with
    | some _ => repl
    | none => []
  | prev, c :: r =>
    match recog prev (c :: r) with
    | some n => repl ++ (c :: r).drop n
    | none => c :: replaceFirstAux recog repl (some c) r

/-- Source `jsReplaceFirst recog repl s` is `s.replace(pattern, repl)` for a
non-global pattern recognised by `recog`. -/
def jsReplaceFirst (recog : Option Char → List Char → Option ℕ)
    (repl : String) (s : String) : String :=
  ⟨replaceFirstAux recog repl.data none s.data⟩

/-- JS `String.replace` with a global regex and empty replacement: delete
every (non-overlapping, leftmost-first) match.  Structural recursion on an
explicit fuel (every step shortens the input, so `l.length` fuel always
suffices, see `removeAllAux`). -/
def removeAllFuel (recog : Option Char → List Char → Option ℕ) :
    ℕ → Option Char → List Char → List Char
  | 0, _, l => l
  | _ + 1, _, [] => []
  | fuel + 1, prev, c :: r =>
    match recog prev (c :: r) with
    | some n =>
      if 1 ≤ n then
        removeAllFuel recog fuel (some (((c :: r).take n).getLastD c)) ((c :: r).drop n)
      else c :: removeAllFuel recog fuel (some c) r
    | none => c :: removeAllFuel recog fuel (some c) r

/-- Global delete of every match, with sufficient fuel. -/
def removeAllAux (recog : Option Char → List Char → Option ℕ)
    (prev : Option Char) (l : List Char) : List Char :=
  removeAllFuel recog l.length prev l

/-- Recogniser for a regex-escaped case-insensitive literal (the
`new RegExp(escaped, "i")` patterns built from `sizeName`/`networkName`). -/
def recogLitCI (pat : List Char) : Option Char → List Char → Option ℕ :=
  fun _ l => if ciStartsWith pat l then some pat.length else none

/-- Recogniser for `\btok\b` case-insensitive, for tokens that start and end
with word characters (all carrier tokens do). -/
def recogWordCI (pat : List Char) : Option Char → List Char → Option ℕ :=
  fun prev l =>
    if prevBoundary prev && ciStartsWith pat l && nextBoundary (l.drop pat.length)
    then some pat.length else none

/-- Recogniser for `\b\d+\s*GB\b` (case-insensitive). -/
def recogGbToken : Option Char → List Char → Option ℕ :=
  fun prev l =>
    if !prevBoundary prev then none
    else
      let ds := l.takeWhile Char.isDigit
      if ds.isEmpty then none
      else
        let rest := l.drop ds.length
        let ws := rest.takeWhile Char.isWhitespace
        match rest.drop ws.length with
        | g :: b :: tail =>
          if g.toLower = 'g' && b.toLower = 'b' && nextBoundary tail then
            some (ds.length + ws.length + 2)
          else none
        | _ => none

/-- Index of the last occurrence of `ch` in `l`. -/
def lastIdxOf (ch : Char) (l : List Char) : Option ℕ :=
  (l.enum.filter (fun p => p.2 = ch)).getLast?.map (·.1)

/-- Recogniser for `\bSE \(<digit>(<ordinal>)?\s*Gen(.*)?\)` (the
`/\bSE \(2(nd)?\s*Gen(.*)?\)/i` and `/\bSE \(3(rd)?\s*Gen(.*)?\)/i`
patterns): greedy `(.*)?` extends the match to the last `)`. -/
def recogSEParen (digit : Char) (ordinal : List Char) :
    Option Char → List Char → Option ℕ :=
  fun prev l =>
    if !prevBoundary prev then none
    else if !ciStartsWith ['S', 'E', ' ', '(', digit] l then none
    else
      let l1 := l.drop 5
      let ord := if ciStartsWith ordinal l1 then ordinal.length else 0
      let l2 := l1.drop ord
      let ws := l2.takeWhile Char.isWhitespace
      let l3 := l2.drop ws.length
      if !ciStartsWith ['G', 'e', 'n'] l3 then none
      else
        match lastIdxOf ')' (l3.drop 3) with
        | none => none
        | some i => some (5 + ord + ws.length + 3 + i + 1)

/-- Recogniser for `\bSE <digit>(.*)?\b` (the `/\bSE 2(.*)?\b/i` and
`/\bSE 3(.*)?\b/i` patterns): greedy `(.*)?` extends the match to the last
position after which a word boundary holds. -/
def recogSEBare (digit : Char) : Option Char → List Char → Option ℕ :=
  fun prev l =>
    if !prevBoundary prev then none
    else if !ciStartsWith ['S', 'E', ' ', digit] l then none
    else
      let rest := l.drop 4
      let ks := (List.range (rest.length + 1)).filter (fun k =>
        let pc := if k = 0 then digit else rest.getD (k - 1) ' '
        isWordChar pc ≠ (match rest.drop k with
          | [] => false
          | c :: _ => isWordChar c))
      match ks.max? with
      | none => none
      | some k => some (4 + k)

/-- Source `_normalizeCarrier(c)` from the source:

```
c=(c||"").toLowerCase();
if(c.includes("unlocked"))return"Unlocked";
if(c.includes("at&t")||c.includes("att"))return"AT&T";
if(c.includes("t-mobile")||c.includes("tmobile"))return"T-Mobile";
if(c.includes("verizon"))return"Verizon";
return c;
```
-/
def _normalizeCarrier (c : String) : String :=
  let lc := jsToLower c
  if jsIncludes lc "unlocked" then "Unlocked"
  else if jsIncludes lc "at&t" || jsIncludes lc "att" then "AT&T"
  else if jsIncludes lc "t-mobile" || jsIncludes lc "tmobile" then "T-Mobile"
  else if jsIncludes lc "verizon" then "Verizon"
  else lc

/-- Source `_gbNormalize(s)` from the source:

```
s=String(s||"").toUpperCase().replace(/\s+/g,"");
const m=s.match(/(\d+)\s*GB/i);
return m?`${m[1]}GB`:s;
```

After whitespace removal `\s*` only matches the empty string, so a match is
a maximal digit run directly followed by `GB` (case-insensitively), scanned
left to right. -/
def gbDigitsAt (l : List Char) : Option (List Char) :=
  let ds := l.takeWhile Char.isDigit
  if ds.isEmpty then none
  else
    match l.drop ds.length with
    | g :: b :: _ => if g.toLower = 'g' && b.toLower = 'b' then some ds else none
    | _ => none

/-- Leftmost `(\d+)GB` match of `_gbNormalize`'s regex. -/
def gbScan : List Char → Option (List Char)
  | [] => none
  | c :: rest =>
    match gbDigitsAt (c :: rest) with
    | some ds => some ds
    | none => gbScan rest

def _gbNormalize (s : String) : String :=
  let t : List Char := stripWs (s.data.map Char.toUpper)
  match gbScan t with
  | some ds => ⟨ds ++ ['G', 'B']⟩
  | none => ⟨t⟩

/-- Source `_cleanCatalogModelName_(s)` from the source: collapse whitespace and
rewrite the SE generation naming variants:

```
const x=(s||"").trim().replace(/\s+/g," ");
return x
  .replace(/\bSE \(2(nd)?\s*Gen(.*)?\)/i,"SE (2020)")
  .replace(/\bSE \(3(rd)?\s*Gen(.*)?\)/i,"SE (2022)")
  .replace(/\bSE 2(.*)?\b/i,"SE (2020)")
  .replace(/\bSE 3(.*)?\b/i,"SE (2022)");
```
-/
def _cleanCatalogModelName_ (s : String) : String :=
  let x : String := ⟨collapseWs (trimChars s.data)⟩
  (jsReplaceFirst (recogSEBare '3') "SE (2022)"
    (jsReplaceFirst (recogSEBare '2') "SE (2020)"
      (jsReplaceFirst (recogSEParen '3' ['r', 'd']) "SE (2022)"
        (jsReplaceFirst (recogSEParen '2' ['n', 'd']) "SE (2020)" x))))

/-- The fixed carrier token list of `_extractModelFromCatalog_`. -/
def carrierTokens : List String :=
  ["Unlocked", "AT&T", "ATT", "T-Mobile", "TMobile", "Verizon", "Cricket",
   "Spectrum", "MetroPCS", "MetroPcs", "Metro", "Straight Talk", "TracFone",
   "Other", "Sprint"]

/-- Source `_extractModelFromCatalog_(productName, networkName, sizeName)` from the
source: strip the storage substring, the network substring, every carrier
token (as a whole word), every standalone `<digits> GB` token, collapse
whitespace, and apply the SE cosmetic rewrite. -/
def _extractModelFromCatalog_ (productName networkName sizeName : String) :
    String :=
  let s0 := productName
  let s1 := if sizeName ≠ "" then jsReplaceFirst (recogLitCI sizeName.data) "" s0
            else s0
  let s2 := if networkName ≠ "" then jsReplaceFirst (recogLitCI networkName.data) "" s1
            else s1
  let s3 := carrierTokens.foldl
    (fun acc tok => jsReplaceFirst (recogWordCI tok.data) "" acc) s2
  let s4 : List Char := removeAllAux recogGbToken none s3.data
  let s5 : List Char := trimChars (collapseWs s4)
  _cleanCatalogModelName_ ⟨s5⟩

/-! ## Price policy engine (`computeNewPrice_`) -/

/-- The pricing constants of the source (`PRICE_BUMP_ABOVE_SECOND`,
`TRIM_LEAD_THRESHOLD`, `NEW_UNDERCUT_LEADER_BY`), gathered into a record
so that statements can quantify over the configuration. -/
structure PriceConfig where
  bump : ℚ
  trim : ℚ
  undercut : ℚ
deriving DecidableEq, Repr

/-- The configuration literally present in the source:
`PRICE_BUMP_ABOVE_SECOND = 1`, `TRIM_LEAD_THRESHOLD = 5.0`,
`NEW_UNDERCUT_LEADER_BY = 20`. -/
def defaultPriceConfig : PriceConfig := ⟨1, 5, 20⟩

/-- Result record `{ proposed, reason }` of `computeNewPrice_`;
`proposed = none` models the empty-string proposal `""`. -/
structure PriceResult where
  proposed : Option ℚ
  reason : String
deriving DecidableEq, Repr

/-- Source `computeNewPrice_(current, rank, delta, condition)` translated from the
source:

```
if (current==null || current==="" || isNaN(Number(current)))
  return { proposed:"", reason:"NO CURRENT PRICE" };
const cur = Number(current);
const r = (rank===""||rank==null)?null:Number(rank);
const d = (delta===""||delta==null)?null:Number(delta);
if (r==null || isNaN(r) || d==null || isNaN(d))
  return { proposed:"", reason:"MISSING RANK/Δ" };
if (condition==="New" && NEW_UNDERCUT_LEADER_BY>0 && r!==1){ ... }
if (r!==1) return { proposed: cur + d + PRICE_BUMP_ABOVE_SECOND, reason:"CHASE #1" };
if (r===1 && (-d)>TRIM_LEAD_THRESHOLD) return { ... "TRIM LEAD" };
return { proposed: cur, reason:"NO CHANGE" };
```
-/
def computeNewPrice_ (cfg : PriceConfig) (current rank delta : Cell)
    (condition : String) : PriceResult :=
  match jsNullableNum current with
  | none => ⟨none, "NO CURRENT PRICE"⟩
  | some cur =>
    match jsNullableNum rank, jsNullableNum delta with
    | some r, some d =>
      if condition = "New" ∧ cfg.undercut > 0 ∧ r ≠ 1 then
        let topPrice := cur + d
        let target := max 0 (topPrice - cfg.undercut)
        ⟨some target, "NEW: TOP-$" ++ jsNumStr cfg.undercut⟩
      else if r ≠ 1 then ⟨some (cur + d + cfg.bump), "CHASE #1"⟩
      else if -d > cfg.trim then ⟨some (cur + d + cfg.bump), "TRIM LEAD"⟩
      else ⟨some cur, "NO CHANGE"⟩
    | _, _ => ⟨none, "MISSING RANK/Δ"⟩

/-! ## Claims about the price policy engine -/

/-- Claim C1. For every call to the price policy engine with a numeric
`current_price`, numeric `rank` and numeric `delta`, if `condition = "New"`,
the undercut offset is configured positive, and `rank ≠ 1`, the proposed
price equals `max(0, (current_price + delta) − undercut_offset)` with reason
`"NEW: TOP-$<offset>"`, and this branch is taken in preference to the
generic chase-leader rule (whose reason would be `"CHASE #1"`); in
particular `current_price=700, rank=2, delta=-15, undercut_offset=20`
yields `proposed=665`. -/
theorem computeNewPrice_new_undercut (cfg : PriceConfig) (cur r d : ℚ)
    (hu : cfg.undercut > 0) (hr : r ≠ 1) :
    computeNewPrice_ cfg (.num cur) (.num r) (.num d) "New"
      = ⟨some (max 0 (cur + d - cfg.undercut)), "NEW: TOP-$" ++ jsNumStr cfg.undercut⟩ ∧
    computeNewPrice_ defaultPriceConfig (.num 700) (.num 2) (.num (-15)) "New"
      = ⟨some 665, "NEW: TOP-$20"⟩ := by
  refine ⟨?_, by with_unfolding_all decide⟩
  simp [computeNewPrice_, hu, hr]

/-- Witness for `computeNewPrice_new_undercut` at the spec's concrete
input (`current_price=700, rank=2, delta=-15`, source configuration). -/
theorem computeNewPrice_new_undercut_witness :
    computeNewPrice_ defaultPriceConfig (.num 700) (.num 2) (.num (-15)) "New"
      = ⟨some (max 0 (700 + (-15) - defaultPriceConfig.undercut)),
          "NEW: TOP-$" ++ jsNumStr defaultPriceConfig.undercut⟩ :=
  (computeNewPrice_new_undercut defaultPriceConfig 700 2 (-15)
    (by norm_num [defaultPriceConfig]) (by norm_num)).1

/-- Claim C2. For every call to the price policy engine with numeric
`current_price`, `rank` and `delta` where the New-undercut branch does not
apply: if `rank ≠ 1` the proposal is `current_price + delta + bump` with
reason `"CHASE #1"`; if `rank = 1` and `−delta` exceeds the trim threshold
the proposal is `current_price + delta + bump` with reason `"TRIM LEAD"`;
otherwise the proposal equals `current_price` unchanged with reason
`"NO CHANGE"`, evaluated in exactly this order (mirrored by the nested
conditional of the conclusion). -/
theorem computeNewPrice_chase_trim_nochange (cfg : PriceConfig)
    (cur r d : ℚ) (cond : String)
    (h : ¬(cond = "New" ∧ cfg.undercut > 0 ∧ r ≠ 1)) :
    computeNewPrice_ cfg (.num cur) (.num r) (.num d) cond
      = if r ≠ 1 then ⟨some (cur + d + cfg.bump), "CHASE #1"⟩
        else if -d > cfg.trim then ⟨some (cur + d + cfg.bump), "TRIM LEAD"⟩
        else ⟨some cur, "NO CHANGE"⟩ := by
  simp only [computeNewPrice_, jsNullableNum_num]
  rw [if_neg h]

/-- Witness for `computeNewPrice_chase_trim_nochange`: the spec's three
concrete examples (`CHASE #1`, `TRIM LEAD`, `NO CHANGE`). -/
theorem computeNewPrice_chase_trim_nochange_witness :
    (computeNewPrice_ defaultPriceConfig (.num 500) (.num 3) (.num (-10)) "Good"
      = if (3 : ℚ) ≠ 1 then ⟨some (500 + (-10) + defaultPriceConfig.bump), "CHASE #1"⟩
        else if -(-10 : ℚ) > defaultPriceConfig.trim
          then ⟨some (500 + (-10) + defaultPriceConfig.bump), "TRIM LEAD"⟩
        else ⟨some 500, "NO CHANGE"⟩) ∧
    (computeNewPrice_ defaultPriceConfig (.num 500) (.num 1) (.num (-8)) "Good"
      = if (1 : ℚ) ≠ 1 then ⟨some (500 + (-8) + defaultPriceConfig.bump), "CHASE #1"⟩
        else if -(-8 : ℚ) > defaultPriceConfig.trim
          then ⟨some (500 + (-8) + defaultPriceConfig.bump), "TRIM LEAD"⟩
        else ⟨some 500, "NO CHANGE"⟩) ∧
    (computeNewPrice_ defaultPriceConfig (.num 500) (.num 1) (.num (-3)) "Good"
      = if (1 : ℚ) ≠ 1 then ⟨some (500 + (-3) + defaultPriceConfig.bump), "CHASE #1"⟩
        else if -(-3 : ℚ) > defaultPriceConfig.trim
          then ⟨some (500 + (-3) + defaultPriceConfig.bump), "TRIM LEAD"⟩
        else ⟨some 500, "NO CHANGE"⟩) :=
  ⟨computeNewPrice_chase_trim_nochange defaultPriceConfig 500 3 (-10) "Good"
      (by simp),
   computeNewPrice_chase_trim_nochange defaultPriceConfig 500 1 (-8) "Good"
      (by simp),
   computeNewPrice_chase_trim_nochange defaultPriceConfig 500 1 (-3) "Good"
      (by simp)⟩

/-! ## Claims about the normalizers (C6) -/

/-- Claim C6, counterexample. The claim "for every input string not matching
the recognized pattern, the normalizers return the input unchanged" is
false: `_normalizeCarrier` returns unrecognized input lower-cased
(`"Sprint"` ↦ `"sprint"`), and `_gbNormalize` returns non-matching input
upper-cased with whitespace removed (`"2 tb"` ↦ `"2TB"`). -/
theorem normalizers_not_identity_cex :
    _normalizeCarrier "Sprint" = "sprint" ∧ "sprint" ≠ "Sprint" ∧
    _gbNormalize "2 tb" = "2TB" ∧ "2TB" ≠ "2 tb" := by
  decide

/-- Claim C6, amended. On input that does not match the recognized patterns,
`_normalizeCarrier` returns the lower-cased input (so it passes the input
through unchanged exactly when the input is already fully lower-case), and
`_gbNormalize` returns the upper-cased, whitespace-stripped input (so it
passes the input through verbatim exactly when that transformation fixes
the input). -/
theorem normalizers_fallthrough (c s : String)
    (h1 : jsIncludes (jsToLower c) "unlocked" = false)
    (h2 : jsIncludes (jsToLower c) "at&t" = false)
    (h3 : jsIncludes (jsToLower c) "att" = false)
    (h4 : jsIncludes (jsToLower c) "t-mobile" = false)
    (h5 : jsIncludes (jsToLower c) "tmobile" = false)
    (h6 : jsIncludes (jsToLower c) "verizon" = false)
    (hs : gbScan (stripWs (s.data.map Char.toUpper)) = none) :
    _normalizeCarrier c = jsToLower c ∧
    (_normalizeCarrier c = c ↔ jsToLower c = c) ∧
    _gbNormalize s = ⟨stripWs (s.data.map Char.toUpper)⟩ ∧
    (_gbNormalize s = s ↔ (⟨stripWs (s.data.map Char.toUpper)⟩ : String) = s) := by
  have hcar : _normalizeCarrier c = jsToLower c := by
    simp [_normalizeCarrier, h1, h2, h3, h4, h5, h6]
  have hgb : _gbNormalize s = ⟨stripWs (s.data.map Char.toUpper)⟩ := by
    simp [_gbNormalize, hs]
  exact ⟨hcar, by rw [hcar], hgb, by rw [hgb]⟩

/-- Witness for `normalizers_fallthrough` at `c = "Sprint"`, `s = "2 tb"`. -/
theorem normalizers_fallthrough_witness :
    _normalizeCarrier "Sprint" = jsToLower "Sprint" ∧
    (_normalizeCarrier "Sprint" = "Sprint" ↔ jsToLower "Sprint" = "Sprint") ∧
    _gbNormalize "2 tb" = ⟨stripWs ("2 tb".data.map Char.toUpper)⟩ ∧
    (_gbNormalize "2 tb" = "2 tb" ↔
      (⟨stripWs ("2 tb".data.map Char.toUpper)⟩ : String) = "2 tb") :=
  normalizers_fallthrough "Sprint" "2 tb" (by decide) (by decide) (by decide)
    (by decide) (by decide) (by decide) (by decide)

/-! ## Catalog index (`buildCatalogIndex_`) -/

/-- The condition list `CONDITIONS = ["New","Mint","Good","Fair","Broken"]`. -/
def CONDITIONS : List String := ["New", "Mint", "Good", "Fair", "Broken"]

/-- One data row of the `Reusely_Catalog` sheet, with its named columns;
`price cond` is the cell in the per-condition price column for `cond`
(`r[priceCols[cond]]` in the source). -/
structure CatalogRow where
  product_id : Cell
  product_name : Cell
  network_name : Cell
  size_name : Cell
  price : String → Cell

/-- A catalog index entry
`{ product_id, model, network_name, size_name }`. -/
structure CatalogEntry where
  product_id : String
  model : String
  network_name : String
  size_name : String
deriving DecidableEq, Repr

/-- The template-literal key `` `${m}|${n}|${s}` ``. -/
def keyStr (m n s : String) : String := m ++ "|" ++ n ++ "|" ++ s

/-- Source `keyStrict` of an entry. -/
def strictKeyOf (e : CatalogEntry) : String :=
  keyStr e.model e.network_name e.size_name

/-- Source `keyLoose` of an entry (empty storage component). -/
def looseKeyOf (e : CatalogEntry) : String :=
  keyStr e.model e.network_name ""

/-- Lookup in a JS object modelled as an association list whose head-most
binding is the most recent write. -/
def kvLookup {α : Type _} : List (String × α) → String → Option α
  | [], _ => none
  | (k, v) :: r, key => if k = key then some v else kvLookup r key

@[simp] theorem kvLookup_nil {α : Type _} (key : String) :
    kvLookup ([] : List (String × α)) key = none := rfl

@[simp] theorem kvLookup_cons {α : Type _} (k : String) (v : α) (r) (key) :
    kvLookup ((k, v) :: r) key = if k = key then some v else kvLookup r key := rfl

@[simp] theorem kvLookup_cons_self {α : Type _} (k : String) (v : α) (r) :
    kvLookup ((k, v) :: r) k = some v := by simp

theorem kvLookup_mem {α : Type _} {l : List (String × α)} {k : String} {v : α}
    (h : kvLookup l k = some v) : (k, v) ∈ l := by
  induction l with
  | nil => simp at h
  | cons p r ih =>
    obtain ⟨k', v'⟩ := p
    rw [kvLookup_cons] at h
    split at h
    · next heq => cases h; exact heq ▸ List.mem_cons_self _ _
    · exact List.mem_cons_of_mem _ (ih h)

/-- The row → entry derivation performed by the `rows.forEach` body of
`buildCatalogIndex_`: normalization, the silent-skip guards, and model
extraction.  `none` models a discarded row. -/
def deriveEntry (r : CatalogRow) : Option CatalogEntry :=
  let pid := _norm r.product_id
  let name := _norm r.product_name
  let net := _normalizeCarrier (_norm r.network_name)
  let size := _gbNormalize (_norm r.size_name)
  if pid = "" ∨ name = "" ∨ net = "" then none
  else
    let modelOnly := _extractModelFromCatalog_ name net size
    if modelOnly = "" then none
    else some ⟨pid, modelOnly, net, size⟩

/-- The result of `buildCatalogIndex_`: `{ idx, priceLookup }`. -/
structure CatalogIndex where
  idx : List (String × CatalogEntry)
  priceLookup : List (String × List (String × ℚ))

/-- Source `Number(v) || 0` for a price cell: blank and non-numeric cells become
`0`. -/
def jsNumOrZero (c : Cell) : ℚ :=
  match jsNum c with
  | none => 0
  | some q => q

/-- The `idx` updates of one catalog row:
`idx[keyStrict] = entry; if (!idx[keyLoose]) idx[keyLoose] = entry;`. -/
def insertIdx (idx : List (String × CatalogEntry)) (e : CatalogEntry) :
    List (String × CatalogEntry) :=
  match kvLookup ((strictKeyOf e, e) :: idx) (looseKeyOf e) with
  | some _ => (strictKeyOf e, e) :: idx
  | none => (looseKeyOf e, e) :: (strictKeyOf e, e) :: idx

/-- The `rows.forEach` body of `buildCatalogIndex_` for one row.
`priceCols` is the set of conditions whose per-condition price column is
present in the catalog header. -/
def catalogRowStep (priceCols : List String) (acc : CatalogIndex)
    (r : CatalogRow) : CatalogIndex :=
  match deriveEntry r with
  | none => acc
  | some e =>
    let idx2 := insertIdx acc.idx e
    let pl :=
      if priceCols ≠ [] then
        let base := (kvLookup acc.priceLookup (strictKeyOf e)).getD []
        let rec1 := CONDITIONS.foldl (fun m cond =>
          if cond ∈ priceCols then (cond, jsNumOrZero (r.price cond)) :: m
          else m) base
        (strictKeyOf e, rec1) :: acc.priceLookup
      else acc.priceLookup
    ⟨idx2, pl⟩

/-- Source `buildCatalogIndex_()` over the data rows of the catalog sheet. -/
def buildCatalogIndex_ (rows : List CatalogRow) (priceCols : List String) :
    CatalogIndex :=
  rows.foldl (catalogRowStep priceCols) ⟨[], []⟩

/-- Source `getCurrentPriceFromCatalog_(priceLookup, model, carrier, storage,
condition)`; the stored values are numbers, so the source's final
`isNaN(Number(v))` test never fires. -/
def getCurrentPriceFromCatalog_ (pl : List (String × List (String × ℚ)))
    (model carrier storage condition : String) : Option ℚ :=
  let key := _cleanCatalogModelName_ model ++ "|" ++ carrier ++ "|" ++ storage
  match kvLookup pl key with
  | none => none
  | some rec1 =>
    match kvLookup rec1 condition with
    | none => none
    | some v => some v

/-! ## Key-string lemmas

The index keys are pipe-separated template strings.  A key splits uniquely
into its components as long as the components contain no `'|'`. -/

theorem data_append (a b : String) : (a ++ b).data = a.data ++ b.data := rfl

/-- A string free of the `'|'` separator. -/
def pipeFree (s : String) : Prop := '|' ∉ s.data

instance (s : String) : Decidable (pipeFree s) := by
  unfold pipeFree; infer_instance

theorem keyStr_data (m n s : String) :
    (keyStr m n s).data = m.data ++ '|' :: (n.data ++ '|' :: s.data) := by
  simp [keyStr, data_append]

theorem pipe_split {a a' r r' : List Char} (ha : '|' ∉ a) (ha' : '|' ∉ a')
    (h : a ++ '|' :: r = a' ++ '|' :: r') : a = a' ∧ r = r' := by
  induction a generalizing a' with
  | nil =>
    cases a' with
    | nil => simpa using h
    | cons c t =>
      simp only [List.nil_append, List.cons_append, List.cons.injEq] at h
      exact absurd (h.1 ▸ List.mem_cons_self c t) (h.1 ▸ ha')
  | cons c t ih =>
    cases a' with
    | nil =>
      simp only [List.nil_append, List.cons_append, List.cons.injEq] at h
      exact absurd (h.1 ▸ List.mem_cons_self c t) (h.1 ▸ ha)
    | cons c' t' =>
      simp only [List.cons_append, List.cons.injEq] at h
      obtain ⟨hc, hrest⟩ := h
      have ht : '|' ∉ t := fun hm => ha (List.mem_cons_of_mem _ hm)
      have ht' : '|' ∉ t' := fun hm => ha' (List.mem_cons_of_mem _ hm)
      obtain ⟨h1, h2⟩ := ih ht ht' hrest
      exact ⟨by rw [hc, h1], h2⟩

theorem pipeFree_count {s : String} (h : pipeFree s) : s.data.count '|' = 0 :=
  List.count_eq_zero.mpr h

theorem count_eq_pipeFree {s : String} (h : s.data.count '|' = 0) : pipeFree s :=
  List.count_eq_zero.mp h

/-- Splitting a key whose queried components are pipe-free forces the
components of the other key to be equal (and pipe-free as well). -/
theorem keyStr_inj {m n s m' n' s' : String}
    (hm : pipeFree m) (hn : pipeFree n) (hs : pipeFree s)
    (h : keyStr m n s = keyStr m' n' s') : m = m' ∧ n = n' ∧ s = s' := by
  have hd : m.data ++ '|' :: (n.data ++ '|' :: s.data)
      = m'.data ++ '|' :: (n'.data ++ '|' :: s'.data) := by
    rw [← keyStr_data, ← keyStr_data, h]
  have hcount := congrArg (List.count '|') hd
  simp only [List.count_append, List.count_cons_self] at hcount
  rw [pipeFree_count hm, pipeFree_count hn, pipeFree_count hs] at hcount
  have hm' : pipeFree m' := count_eq_pipeFree (by omega)
  have hn' : pipeFree n' := count_eq_pipeFree (by omega)
  have hs' : pipeFree s' := count_eq_pipeFree (by omega)
  obtain ⟨h1, hrest⟩ := pipe_split hm hm' hd
  obtain ⟨h2, h3⟩ := pipe_split hn hn' hrest
  exact ⟨String.ext h1, String.ext h2, String.ext h3⟩

/-! ## Index-building lemmas (for C5) -/

theorem insertIdx_sub {idx : List (String × CatalogEntry)} {e : CatalogEntry}
    {p : String × CatalogEntry} (hp : p ∈ insertIdx idx e) :
    p ∈ idx ∨ p = (strictKeyOf e, e) ∨ p = (looseKeyOf e, e) := by
  unfold insertIdx at hp
  split at hp <;> simp only [List.mem_cons] at hp <;> tauto

theorem foldl_insertIdx_mem :
    ∀ (ents : List CatalogEntry) (idx : List (String × CatalogEntry))
      (p : String × CatalogEntry), p ∈ ents.foldl insertIdx idx →
      p ∈ idx ∨ ∃ e ∈ ents, p = (strictKeyOf e, e) ∨ p = (looseKeyOf e, e) := by
  intro ents
  induction ents with
  | nil => simp
  | cons e rest ih =>
    intro idx p hp
    rw [List.foldl_cons] at hp
    rcases ih _ _ hp with h | ⟨e', he', h⟩
    · rcases insertIdx_sub h with h | h | h
      · exact Or.inl h
      · exact Or.inr ⟨e, List.mem_cons_self e rest, Or.inl h⟩
      · exact Or.inr ⟨e, List.mem_cons_self e rest, Or.inr h⟩
    · exact Or.inr ⟨e', List.mem_cons_of_mem _ he', h⟩

theorem buildCatalogIndex_idx_eq (cols : List String) :
    ∀ (rows : List CatalogRow) (acc : CatalogIndex),
      (rows.foldl (catalogRowStep cols) acc).idx
        = (rows.filterMap deriveEntry).foldl insertIdx acc.idx := by
  intro rows
  induction rows with
  | nil => intro acc; simp
  | cons r rest ih =>
    intro acc
    rw [List.foldl_cons, List.filterMap_cons]
    cases hd : deriveEntry r with
    | none =>
      have hstep : catalogRowStep cols acc r = acc := by
        simp only [catalogRowStep, hd]
      simp only [hstep, ih acc]
    | some e =>
      have hstep : (catalogRowStep cols acc r).idx = insertIdx acc.idx e := by
        simp only [catalogRowStep, hd]
      simp only [ih (catalogRowStep cols acc r), hstep, List.foldl_cons]

/-- Every binding of the built index carries either the strict key or the
loose key of its own entry, and that entry is derived from some row. -/
theorem mem_idx_key {rows : List CatalogRow} {cols : List String}
    {k : String} {v : CatalogEntry}
    (h : (k, v) ∈ (buildCatalogIndex_ rows cols).idx) :
    (v ∈ rows.filterMap deriveEntry) ∧ (k = strictKeyOf v ∨ k = looseKeyOf v) := by
  rw [buildCatalogIndex_, buildCatalogIndex_idx_eq] at h
  rcases foldl_insertIdx_mem _ _ _ h with h | ⟨e, he, h | h⟩
  · simp at h
  · obtain ⟨h1, h2⟩ := Prod.mk.injEq .. ▸ h
    cases h; exact ⟨he, Or.inl rfl⟩
  · cases h; exact ⟨he, Or.inr rfl⟩

/-- A present binding survives the processing of further entries none of
whose strict keys equals the bound key. -/
theorem foldl_insertIdx_lookup_present :
    ∀ (ents : List CatalogEntry) (idx : List (String × CatalogEntry))
      (k : String) (v : CatalogEntry),
      kvLookup idx k = some v → (∀ e ∈ ents, strictKeyOf e ≠ k) →
      kvLookup (ents.foldl insertIdx idx) k = some v := by
  intro ents
  induction ents with
  | nil => intro idx k v hv _; simpa using hv
  | cons e rest ih =>
    intro idx k v hv hn
    have hse : strictKeyOf e ≠ k := hn e (List.mem_cons_self e rest)
    have h1 : kvLookup ((strictKeyOf e, e) :: idx) k = some v := by
      rw [kvLookup_cons, if_neg hse, hv]
    rw [List.foldl_cons]
    have hrest : ∀ e' ∈ rest, strictKeyOf e' ≠ k :=
      fun e' he' => hn e' (List.mem_cons_of_mem _ he')
    cases hkl : kvLookup ((strictKeyOf e, e) :: idx) (looseKeyOf e) with
    | some w =>
      rw [show insertIdx idx e = (strictKeyOf e, e) :: idx by
        simp only [insertIdx, hkl]]
      exact ih _ _ _ h1 hrest
    | none =>
      rw [show insertIdx idx e = (looseKeyOf e, e) :: (strictKeyOf e, e) :: idx by
        simp only [insertIdx, hkl]]
      have hle : looseKeyOf e ≠ k := by
        intro hctr
        rw [hctr] at hkl
        rw [hkl] at h1
        exact Option.noConfusion h1
      exact ih _ _ _ (by rw [kvLookup_cons, if_neg hle, h1]) hrest

/-- An entry whose strict key is a loose-form key (pipe-free components,
empty storage slot) has exactly those components and empty storage. -/
theorem strict_eq_loose_query {e : CatalogEntry} {m n : String}
    (hm : pipeFree m) (hn : pipeFree n)
    (h : strictKeyOf e = keyStr m n "") :
    e.model = m ∧ e.network_name = n ∧ e.size_name = "" ∧
      looseKeyOf e = keyStr m n "" := by
  have hemp : pipeFree "" := by intro hc; simp [String.data] at hc
  obtain ⟨h1, h2, h3⟩ := keyStr_inj hm hn hemp h.symm
  exact ⟨h1.symm, h2.symm, h3.symm, by
    rw [looseKeyOf, h1, h2]⟩

/-- Loose-key bookkeeping: starting without a binding for the loose key
`m|n|`, if every entry for `(m, n)` after the first has non-empty storage,
the final binding at the loose key is the first entry registered for
`(m, n)`. -/
theorem foldl_insertIdx_lookup_loose :
    ∀ (ents : List CatalogEntry) (idx : List (String × CatalogEntry))
      (m n : String), pipeFree m → pipeFree n →
      kvLookup idx (keyStr m n "") = none →
      (∀ e ∈ (ents.filter fun e => decide (looseKeyOf e = keyStr m n "")).tail,
        e.size_name ≠ "") →
      kvLookup (ents.foldl insertIdx idx) (keyStr m n "")
        = (ents.filter fun e => decide (looseKeyOf e = keyStr m n "")).head? := by
  intro ents
  induction ents with
  | nil => intro idx m n _ _ h0 _; simpa using h0
  | cons e rest ih =>
    intro idx m n hm hn h0 htail
    rw [List.foldl_cons]
    by_cases hl : looseKeyOf e = keyStr m n ""
    · have hfil : ((e :: rest).filter fun e => decide (looseKeyOf e = keyStr m n ""))
          = e :: (rest.filter fun e => decide (looseKeyOf e = keyStr m n "")) := by
        simp [List.filter_cons, hl]
      rw [hfil]
      rw [hfil] at htail
      simp only [List.tail_cons] at htail
      have hrest : ∀ e' ∈ rest, strictKeyOf e' ≠ keyStr m n "" := by
        intro e' he' hctr
        obtain ⟨_, _, hsz, hle⟩ := strict_eq_loose_query hm hn hctr
        refine htail e' ?_ hsz
        exact List.mem_filter.mpr ⟨he', by simp [hle]⟩
      by_cases hse : strictKeyOf e = keyStr m n ""
      · have h1 : kvLookup ((strictKeyOf e, e) :: idx) (keyStr m n "") = some e := by
          rw [kvLookup_cons, if_pos hse]
        have hkl : kvLookup ((strictKeyOf e, e) :: idx) (looseKeyOf e) = some e := by
          rw [hl]; exact h1
        rw [show insertIdx idx e = (strictKeyOf e, e) :: idx by
          simp only [insertIdx, hkl]]
        simp only [List.head?_cons]
        exact foldl_insertIdx_lookup_present rest _ _ _ h1 hrest
      · have h1 : kvLookup ((strictKeyOf e, e) :: idx) (keyStr m n "") = none := by
          rw [kvLookup_cons, if_neg hse, h0]
        have hkl : kvLookup ((strictKeyOf e, e) :: idx) (looseKeyOf e) = none := by
          rw [hl]; exact h1
        rw [show insertIdx idx e
            = (looseKeyOf e, e) :: (strictKeyOf e, e) :: idx by
          simp only [insertIdx, hkl]]
        simp only [List.head?_cons]
        exact foldl_insertIdx_lookup_present rest _ _ _
          (by rw [kvLookup_cons, if_pos hl]) hrest
    · have hfil : ((e :: rest).filter fun e => decide (looseKeyOf e = keyStr m n ""))
          = rest.filter fun e => decide (looseKeyOf e = keyStr m n "") := by
        simp [List.filter_cons, hl]
      rw [hfil]
      rw [hfil] at htail
      have hse : strictKeyOf e ≠ keyStr m n "" := by
        intro hctr
        exact hl (strict_eq_loose_query hm hn hctr).2.2.2
      have h1 : kvLookup ((strictKeyOf e, e) :: idx) (keyStr m n "") = none := by
        rw [kvLookup_cons, if_neg hse, h0]
      cases hkl : kvLookup ((strictKeyOf e, e) :: idx) (looseKeyOf e) with
      | some w =>
        rw [show insertIdx idx e = (strictKeyOf e, e) :: idx by
          simp only [insertIdx, hkl]]
        exact ih _ m n hm hn h1 htail
      | none =>
        rw [show insertIdx idx e
            = (looseKeyOf e, e) :: (strictKeyOf e, e) :: idx by
          simp only [insertIdx, hkl]]
        exact ih _ m n hm hn (by rw [kvLookup_cons, if_neg hl, h1]) htail

/-- Source `idx[keyStrict] || idx[keyLoose]` from `buildProposals_` (an index
entry is a truthy object, so `||` selects the strict lookup when it
succeeds). -/
def resolveCatalog (idx : List (String × CatalogEntry)) (ks kl : String) :
    Option CatalogEntry :=
  match kvLookup idx ks with
  | some c => some c
  | none => kvLookup idx kl

/-! ### C5 -/

/-- Claim C5, counterexample.  "Each loose key maps to the first-registered
entry for that (model, network) — first entry wins on loose-key
collisions" is false: a later catalog row whose storage normalizes to the
empty string has a strict key identical to the loose key, and its
unconditional strict-key write overwrites the loose binding.  Rows:
(id 1, "Widget", "Verizon", "128GB") then (id 2, "Widget", "Verizon",
blank storage).  The first-registered entry for (Widget, Verizon) is id 1,
but loose lookup returns id 2. -/
theorem catalogIndex_loose_not_first_cex :
    kvLookup (buildCatalogIndex_
        [⟨.str "1", .str "Widget", .str "Verizon", .str "128GB", fun _ => .blank⟩,
         ⟨.str "2", .str "Widget", .str "Verizon", .blank, fun _ => .blank⟩] []).idx
        (keyStr "Widget" "Verizon" "")
      = some ⟨"2", "Widget", "Verizon", ""⟩ ∧
    (([⟨.str "1", .str "Widget", .str "Verizon", .str "128GB", fun _ => .blank⟩,
       ⟨.str "2", .str "Widget", .str "Verizon", .blank, fun _ => .blank⟩]
        |>.filterMap deriveEntry).filter
        fun e => decide (looseKeyOf e = keyStr "Widget" "Verizon" "")).head?
      = some ⟨"1", "Widget", "Verizon", "128GB"⟩ ∧
    (⟨"2", "Widget", "Verizon", ""⟩ : CatalogEntry)
      ≠ ⟨"1", "Widget", "Verizon", "128GB"⟩ := by
  decide

/-- Claim C5, amended.  For every catalog row set: (i) strict-key lookup with
pipe-free components and a non-empty storage component only returns an
entry with exactly that (model, network, storage) triple; (ii) loose-key
lookup returns the first-registered entry for that (model, network)
provided every later-registered entry for that pair has non-empty
normalized storage (an entry with empty storage has a strict key equal to
the loose key and overwrites the loose binding, see
`catalogIndex_loose_not_first_cex`); (iii) proposal resolution tries the
strict key first and falls back to the loose key. -/
theorem catalogIndex_strict_loose_resolution :
    (∀ (rows : List CatalogRow) (cols : List String) (m n s : String)
        (e : CatalogEntry), pipeFree m → pipeFree n → pipeFree s → s ≠ "" →
        kvLookup (buildCatalogIndex_ rows cols).idx (keyStr m n s) = some e →
        e.model = m ∧ e.network_name = n ∧ e.size_name = s) ∧
    (∀ (rows : List CatalogRow) (cols : List String) (m n : String),
        pipeFree m → pipeFree n →
        (∀ e ∈ ((rows.filterMap deriveEntry).filter
            fun e => decide (looseKeyOf e = keyStr m n "")).tail,
          e.size_name ≠ "") →
        kvLookup (buildCatalogIndex_ rows cols).idx (keyStr m n "")
          = ((rows.filterMap deriveEntry).filter
              fun e => decide (looseKeyOf e = keyStr m n "")).head?) ∧
    (∀ (idx : List (String × CatalogEntry)) (ks kl : String),
        (∀ c, kvLookup idx ks = some c → resolveCatalog idx ks kl = some c) ∧
        (kvLookup idx ks = none → resolveCatalog idx ks kl = kvLookup idx kl)) := by
  refine ⟨?_, ?_, ?_⟩
  · intro rows cols m n s e hm hn hs hs0 h
    obtain ⟨_, hk⟩ := mem_idx_key (kvLookup_mem h)
    rcases hk with hk | hk
    · have hk' : keyStr m n s = keyStr e.model e.network_name e.size_name := by
        rw [hk]; rfl
      obtain ⟨h1, h2, h3⟩ := keyStr_inj hm hn hs hk'
      exact ⟨h1.symm, h2.symm, h3.symm⟩
    · have hk' : keyStr m n s = keyStr e.model e.network_name "" := by
        rw [hk]; rfl
      obtain ⟨_, _, h3⟩ := keyStr_inj hm hn hs hk'
      exact absurd h3 hs0
  · intro rows cols m n hm hn htail
    rw [buildCatalogIndex_, buildCatalogIndex_idx_eq]
    exact foldl_insertIdx_lookup_loose _ _ m n hm hn rfl htail
  · intro idx ks kl
    constructor
    · intro c hc; simp [resolveCatalog, hc]
    · intro hc; simp [resolveCatalog, hc]

/-- Witness for `catalogIndex_strict_loose_resolution` on a concrete
one-row catalog. -/
theorem catalogIndex_strict_loose_resolution_witness :
    ((⟨"1", "Widget", "Verizon", "128GB"⟩ : CatalogEntry).model = "Widget" ∧
      (⟨"1", "Widget", "Verizon", "128GB"⟩ : CatalogEntry).network_name = "Verizon" ∧
      (⟨"1", "Widget", "Verizon", "128GB"⟩ : CatalogEntry).size_name = "128GB") ∧
    kvLookup (buildCatalogIndex_
        [⟨.str "1", .str "Widget", .str "Verizon", .str "128GB", fun _ => .blank⟩]
        []).idx (keyStr "Widget" "Verizon" "")
      = (([⟨.str "1", .str "Widget", .str "Verizon", .str "128GB",
            fun _ => .blank⟩].filterMap deriveEntry).filter
          fun e => decide (looseKeyOf e = keyStr "Widget" "Verizon" "")).head? ∧
    resolveCatalog [(keyStr "Widget" "Verizon" "128GB",
        ⟨"1", "Widget", "Verizon", "128GB"⟩)]
      (keyStr "Widget" "Verizon" "128GB") (keyStr "Widget" "Verizon" "")
      = some ⟨"1", "Widget", "Verizon", "128GB"⟩ :=
  ⟨catalogIndex_strict_loose_resolution.1
      [⟨.str "1", .str "Widget", .str "Verizon", .str "128GB", fun _ => .blank⟩]
      [] "Widget" "Verizon" "128GB" ⟨"1", "Widget", "Verizon", "128GB"⟩
      (by decide) (by decide) (by decide) (by decide) (by decide),
   catalogIndex_strict_loose_resolution.2.1
      [⟨.str "1", .str "Widget", .str "Verizon", .str "128GB", fun _ => .blank⟩]
      [] "Widget" "Verizon" (by decide) (by decide) (by decide),
   (catalogIndex_strict_loose_resolution.2.2
      [(keyStr "Widget" "Verizon" "128GB", ⟨"1", "Widget", "Verizon", "128GB"⟩)]
      (keyStr "Widget" "Verizon" "128GB") (keyStr "Widget" "Verizon" "")).1
      ⟨"1", "Widget", "Verizon", "128GB"⟩ (by decide)⟩

/-! ### C9: blank/non-numeric catalog price cells -/

theorem condFold_lookup_of_not_mem (priceCols : List String) (g : String → ℚ) :
    ∀ (conds : List String) (m : List (String × ℚ)) (cond : String),
      cond ∉ conds →
      kvLookup (conds.foldl
        (fun m c => if c ∈ priceCols then (c, g c) :: m else m) m) cond
        = kvLookup m cond := by
  intro conds
  induction conds with
  | nil => simp
  | cons c rest ih =>
    intro m cond hn
    rw [List.foldl_cons]
    have hc : c ≠ cond := fun h => hn (h ▸ List.mem_cons_self c rest)
    have hrest : cond ∉ rest := fun h => hn (List.mem_cons_of_mem _ h)
    rw [ih _ _ hrest]
    by_cases hp : c ∈ priceCols
    · rw [if_pos hp, kvLookup_cons, if_neg hc]
    · rw [if_neg hp]

theorem condFold_lookup_of_mem (priceCols : List String) (g : String → ℚ) :
    ∀ (conds : List String) (m : List (String × ℚ)) (cond : String),
      conds.Nodup → cond ∈ conds → cond ∈ priceCols →
      kvLookup (conds.foldl
        (fun m c => if c ∈ priceCols then (c, g c) :: m else m) m) cond
        = some (g cond) := by
  intro conds
  induction conds with
  | nil => simp
  | cons c rest ih =>
    intro m cond hnd hmem hp
    rw [List.foldl_cons]
    rcases List.mem_cons.mp hmem with rfl | hmem'
    · have hrest : cond ∉ rest := (List.nodup_cons.mp hnd).1
      rw [condFold_lookup_of_not_mem priceCols g rest _ cond hrest,
        if_pos hp, kvLookup_cons, if_pos rfl]
    · exact ih _ cond (List.nodup_cons.mp hnd).2 hmem' hp

theorem new_reason_ne_no_current (t : String) :
    "NEW: TOP-$" ++ t ≠ "NO CURRENT PRICE" := by
  intro h
  have h2 := congrArg (fun s : String => s.data.get? 1) h
  have h3 : (some 'E' : Option Char) = some 'O' := h2
  simp at h3

/-- With a present zero current price the policy engine proceeds past the
current-price guard: its reason is never `"NO CURRENT PRICE"`. -/
theorem computeNewPrice_zero_current_reason (cfg : PriceConfig)
    (rank delta : Cell) (cond : String) :
    (computeNewPrice_ cfg (.num 0) rank delta cond).reason
      ≠ "NO CURRENT PRICE" := by
  simp only [computeNewPrice_, jsNullableNum_num]
  cases hr : jsNullableNum rank with
  | none => cases hd : jsNullableNum delta <;> simp
  | some r =>
    cases hd : jsNullableNum delta with
    | none => simp
    | some d =>
      simp only []
      split_ifs <;> first
        | exact new_reason_ne_no_current _
        | simp

/-- Claim C9. When the catalog source contains per-condition price columns, a
blank or non-numeric price cell is recorded in the price lookup as the
number `0` rather than as absent: for a row `r` registered (last) for its
strict key, `getCurrentPriceFromCatalog_` returns `some 0` (never `none`)
for such a cell, and the policy engine consequently proceeds past the
current-price guard instead of returning `"NO CURRENT PRICE"`. -/
theorem catalog_blank_price_recorded_zero (rows : List CatalogRow)
    (cols : List String) (r : CatalogRow) (e : CatalogEntry)
    (cond model carrier storage : String) (cfg : PriceConfig)
    (rank delta : Cell)
    (hcond : cond ∈ CONDITIONS) (hcols : cond ∈ cols)
    (hder : deriveEntry r = some e)
    (hcell : r.price cond = Cell.blank ∨ jsNum (r.price cond) = none)
    (hkey : _cleanCatalogModelName_ model ++ "|" ++ carrier ++ "|" ++ storage
      = strictKeyOf e) :
    getCurrentPriceFromCatalog_
        (buildCatalogIndex_ (rows ++ [r]) cols).priceLookup
        model carrier storage cond = some 0 ∧
    (computeNewPrice_ cfg (optToCell (some 0)) rank delta cond).reason
      ≠ "NO CURRENT PRICE" := by
  constructor
  · have hne : cols ≠ [] := List.ne_nil_of_mem hcols
    have hfold : buildCatalogIndex_ (rows ++ [r]) cols
        = catalogRowStep cols (buildCatalogIndex_ rows cols) r := by
      rw [buildCatalogIndex_, List.foldl_append, List.foldl_cons, List.foldl_nil]
      rfl
    have hzero : jsNumOrZero (r.price cond) = 0 := by
      rcases hcell with hb | hn
      · rw [hb]; rfl
      · rw [jsNumOrZero, hn]
    have hpl : (catalogRowStep cols (buildCatalogIndex_ rows cols) r).priceLookup
        = (strictKeyOf e,
            CONDITIONS.foldl
              (fun m c => if c ∈ cols then (c, jsNumOrZero (r.price c)) :: m else m)
              ((kvLookup (buildCatalogIndex_ rows cols).priceLookup
                (strictKeyOf e)).getD []))
          :: (buildCatalogIndex_ rows cols).priceLookup := by
      simp only [catalogRowStep, hder, if_pos hne]
    rw [hfold, getCurrentPriceFromCatalog_, hpl, hkey]
    simp only [kvLookup_cons_self]
    rw [condFold_lookup_of_mem cols (fun c => jsNumOrZero (r.price c)) CONDITIONS _
      cond (by decide) hcond hcols, hzero]
  · exact computeNewPrice_zero_current_reason cfg rank delta cond

/-- Witness for `catalog_blank_price_recorded_zero`: a one-row catalog with
all five price columns and a blank `"Good"` cell. -/
theorem catalog_blank_price_recorded_zero_witness :
    getCurrentPriceFromCatalog_
        (buildCatalogIndex_
          ([] ++ [⟨.str "9", .str "Widget", .str "Verizon", .str "128GB",
            fun _ => .blank⟩]) CONDITIONS).priceLookup
        "Widget" "Verizon" "128GB" "Good" = some 0 ∧
    (computeNewPrice_ defaultPriceConfig (optToCell (some 0)) .blank .blank
        "Good").reason ≠ "NO CURRENT PRICE" :=
  catalog_blank_price_recorded_zero [] CONDITIONS
    ⟨.str "9", .str "Widget", .str "Verizon", .str "128GB", fun _ => .blank⟩
    ⟨"9", "Widget", "Verizon", "128GB"⟩ "Good" "Widget" "Verizon" "128GB"
    defaultPriceConfig .blank .blank
    (by decide) (by decide) (by decide) (Or.inl rfl) (by decide)

/-! ## Report reading (`readReportRows_`) -/

/-- Source `_titleRowToIndex(h)`: maps `String(x).trim()` to the column index;
a later duplicate header cell overwrites an earlier one, so the *last*
occurrence wins. -/
def headerIdxLast (h : List Cell) (name : String) : Option ℕ :=
  ((h.enum.filter (fun p => decide (jsTrim (cellStr p.2) = name))).getLast?).map
    (·.1)

/-- Source `row[i]`: an index beyond the row length yields `undefined`, which the
downstream code treats exactly like an empty cell. -/
def cellAt (row : List Cell) (i : ℕ) : Cell := (row.get? i).getD .blank

/-- Source `(x===""||x==null) ? "" : x` (identity on our cell model, kept for
fidelity to the source). -/
def blankNorm (c : Cell) : Cell := if c = .blank then .blank else c

/-- One report record `{ model, storage, condition, rank, delta }`. -/
structure ReportRecord where
  model : String
  storage : String
  condition : String
  rank : Cell
  delta : Cell
deriving DecidableEq, Repr

/-- Source `readReportRows_(tabName)` translated from the source.  The sheet is
`none` when absent (`_sheetByName` returned `null`); otherwise `values` is
the data range.  Row 1 (index 0) is a banner, row 2 (index 1) is the
header, data starts at index 2.  Throwing
`new Error(tabName + " missing column: Model")` is modelled by
`Except.error`. -/
def readReportRows_ (tabName : String) (tab : Option (List (List Cell))) :
    Except String (List ReportRecord) :=
  match tab with
  | none => .ok []
  | some values =>
    if values.length < 2 then .ok []
    else
      match values.get? 1 with
      | none => .ok []
      | some header =>
        match headerIdxLast header "Model" with
        | none => .error (tabName ++ " missing column: Model")
        | some iModel =>
          let hasStorage := (headerIdxLast header "Storage").isSome
          .ok ((values.drop 2).flatMap (fun row =>
            let model := _norm (cellAt row iModel)
            if model = "" then []
            else
              let storage := if hasStorage
                then _gbNormalize (_norm (cellAt row
                  ((headerIdxLast header "Storage").getD 0)))
                else ""
              CONDITIONS.filterMap (fun cond =>
                match headerIdxLast header (cond ++ " Rank"),
                      headerIdxLast header (cond ++ " Δ") with
                | some ir, some idl =>
                  some ⟨model, storage, cond,
                        blankNorm (cellAt row ir), blankNorm (cellAt row idl)⟩
                | _, _ => none)))

/-- Claim C7. The Report Row Reader raises an error if and only if the source
table is present but its header (the second row, where one exists) lacks
the Model column; an absent source table yields an empty record set and no
error.  (A present table with fewer than two rows has no header row and
also yields an empty record set without error.) -/
theorem readReportRows_error_iff (tabName : String) :
    readReportRows_ tabName none = .ok ([] : List ReportRecord) ∧
    ∀ (values : List (List Cell)),
      ((∃ msg, readReportRows_ tabName (some values) = .error msg) ↔
        (∃ hdr, values.get? 1 = some hdr ∧ headerIdxLast hdr "Model" = none)) := by
  refine ⟨rfl, fun values => ?_⟩
  by_cases hlen : values.length < 2
  · have hget : values.get? 1 = none := by
      rw [List.get?_eq_none]; omega
    simp only [readReportRows_, if_pos hlen, hget]
    constructor
    · rintro ⟨msg, hmsg⟩
      exact Except.noConfusion hmsg
    · rintro ⟨hdr, hh, _⟩
      exact Option.noConfusion hh
  · cases hget : values.get? 1 with
    | none =>
      rw [List.get?_eq_none] at hget
      omega
    | some hdr =>
      cases hmod : headerIdxLast hdr "Model" with
      | none =>
        simp only [readReportRows_, if_neg hlen, hget, hmod]
        exact ⟨fun _ => ⟨hdr, rfl, hmod⟩, fun _ => ⟨_, rfl⟩⟩
      | some iModel =>
        simp only [readReportRows_, if_neg hlen, hget, hmod]
        constructor
        · rintro ⟨msg, hmsg⟩
          exact Except.noConfusion hmsg
        · rintro ⟨hdr', hh, hm⟩
          cases hh
          rw [hmod] at hm
          exact Option.noConfusion hm

/-- Witness for `readReportRows_error_iff`: the absent-table case and a
present two-row table whose header lacks the Model column. -/
theorem readReportRows_error_iff_witness :
    readReportRows_ "Report_Unlocked_AllGB" none = .ok ([] : List ReportRecord) ∧
    (∃ msg, readReportRows_ "Report_Unlocked_AllGB"
      (some [[Cell.str "banner"], [Cell.str "NotModel"]]) = .error msg) :=
  ⟨(readReportRows_error_iff "Report_Unlocked_AllGB").1,
   ((readReportRows_error_iff "Report_Unlocked_AllGB").2
      [[Cell.str "banner"], [Cell.str "NotModel"]]).mpr
      ⟨[Cell.str "NotModel"], rfl, by decide⟩⟩

/-! ## Pricing push client and proposal builder -/

/-- An HTTP interaction outcome: a response with a status code and body, or
a thrown transport error. -/
inductive FetchResult where
  | response (status : ℕ) (body : String)
  | thrown (msg : String)
deriving DecidableEq, Repr

/-- One element of the request's `conditions` array. -/
structure CondSpec where
  name : String
  price : ℤ
  is_custom_price : ℕ
deriving DecidableEq, Repr

/-- The request body `{ product_id, conditions }`; `product_id` is
`Number(productId)` (`none` models `NaN`). -/
structure Payload where
  product_id : Option ℚ
  conditions : List CondSpec
deriving DecidableEq, Repr

/-- Source `condMap[condition] || condition`: the internal → external condition
name mapping with pass-through for unknown names. -/
def condMap (c : String) : String :=
  if c = "New" then "Brand New"
  else if c = "Mint" then "Flawless"
  else if c = "Good" then "Good"
  else if c = "Fair" then "Fair"
  else if c = "Broken" then "Broken"
  else c

/-- The payload built by `putPrice_` (Apps Script variant):
`{ product_id: Number(productId), conditions: [{ name, price:
Math.round(Number(price)), is_custom_price: 1 }] }`. -/
def putPricePayload (productId condition : String) (price : ℚ) : Payload :=
  ⟨jsStrNum productId, [⟨condMap condition, jsRound price, 1⟩]⟩

/-- Source `{ ok, note }` returned by `putPrice_`. -/
structure PutResult where
  ok : Bool
  note : String
deriving DecidableEq, Repr

/-- Source `base.replace(/\/+$/, "")`. -/
def stripTrailingSlash (s : String) : String :=
  ⟨(s.data.reverse.dropWhile (· = '/')).reverse⟩

/-- Source `String(body||"").slice(0,300).replace(/\s+/g," ").trim()`. -/
def truncNote (body : String) : String :=
  ⟨trimChars (collapseWs (body.data.take 300))⟩

/-- Source `putPrice_(productId, condition, price)` translated from the source,
parameterized over the endpoint configuration and the HTTP collaborator
`respond`.  The second component records the requests actually issued
(`[]` or the single payload). -/
def putPrice_ (respond : Payload → FetchResult) (base path : String)
    (productId condition : String) (price : ℚ) : PutResult × List Payload :=
  if base = "" ∨ path = "" then (⟨false, "no-endpoint"⟩, [])
  else
    match respond (putPricePayload productId condition price) with
    | .thrown msg => (⟨false, msg⟩, [putPricePayload productId condition price])
    | .response code body =>
      if 200 ≤ code ∧ code < 300 then
        (⟨true, ""⟩, [putPricePayload productId condition price])
      else
        (⟨false, toString code ++ " " ++ truncNote body ++ " @ "
            ++ (stripTrailingSlash base ++ path)⟩,
         [putPricePayload productId condition price])

/-- The apply/dry-run tail of the `records.forEach` body of
`buildProposals_`: status tags pushed after the reason, and the requests
issued. -/
def pushStep (respond : Payload → FetchResult) (base path : String)
    (doApply : Bool) (productId cond : String) (proposed : Option ℚ) :
    List String × List Payload :=
  if doApply then
    match proposed with
    | some q =>
      if productId ≠ "" then
        let pr := putPrice_ respond base path productId cond q
        ([if pr.1.ok then "APPLIED"
          else "APPLY FAILED" ++
            (if pr.1.note ≠ "" then " (" ++ pr.1.note ++ ")" else "")],
         pr.2)
      else (["SKIPPED"], [])
    | none => (["SKIPPED"], [])
  else ([], [])

/-- The `{ "New":"New","Flawless":"Mint",... }` read-back map of
`buildProposals_`, inverted: the external key whose mapped internal name is
`cond` (the map is injective, so at most one key matches). -/
def apiKeyFor (cond : String) : Option String :=
  if cond = "New" then some "New"
  else if cond = "Mint" then some "Flawless"
  else if cond = "Good" then some "Good"
  else if cond = "Fair" then some "Fair"
  else if cond = "Broken" then some "Broken"
  else none

/-- One appended audit row of the `Proposals` sheet. -/
structure ProposalRow where
  whenTs : String
  carrier : String
  model : String
  storage : String
  condition : String
  rank : Cell
  delta : Cell
  currentPrice : Option ℚ
  proposedPrice : Option ℚ
  status : String
  product_id : String

/-- The `records.forEach` body of `buildProposals_` for one report record:
catalog resolution (strict key, then loose key), current-price lookup
(catalog price columns if present, else the pricing API read-back),
policy-engine invocation, status assembly, and — in apply mode — the push.
Returns the audit row and the requests issued. -/
def processRecord (cidx : CatalogIndex)
    (apiPrices : String → Option (List (String × ℚ)))
    (respond : Payload → FetchResult) (base path : String)
    (cfg : PriceConfig) (doApply : Bool) (hasAllGb : Bool)
    (carrier carrierNorm whenTs : String) (rec : ReportRecord) :
    ProposalRow × List Payload :=
  let model := jsTrim rec.model
  let storage := if hasAllGb then _gbNormalize (jsTrim rec.storage) else ""
  let cond := rec.condition
  let modelKey := _cleanCatalogModelName_ model
  let keyStrict := modelKey ++ "|" ++ carrierNorm ++ "|" ++ storage
  let keyLoose := modelKey ++ "|" ++ carrierNorm ++ "|"
  let cat := resolveCatalog cidx.idx keyStrict keyLoose
  let productId := match cat with | some c => c.product_id | none => ""
  let currentPrice : Option ℚ :=
    if cidx.priceLookup ≠ [] then
      getCurrentPriceFromCatalog_ cidx.priceLookup model carrierNorm storage cond
    else if productId ≠ "" then
      match apiPrices productId with
      | some prices => (apiKeyFor cond).bind (fun k => kvLookup prices k)
      | none => none
    else none
  let res := computeNewPrice_ cfg (optToCell currentPrice) rec.rank rec.delta cond
  let sp1 : List String := if productId = "" then ["NO CATALOG MATCH"] else []
  let sp2 : List String :=
    if res.proposed.isSome then
      [res.reason] ++ (if doApply then [] else ["DRY-RUN"])
    else [res.reason]
  let tail := pushStep respond base path doApply productId cond res.proposed
  (⟨whenTs, carrier, model, storage, cond, rec.rank, rec.delta,
    currentPrice, res.proposed,
    String.intercalate " | " (sp1 ++ sp2 ++ tail.1), productId⟩,
   tail.2)

/-- All pricing-update requests issued while processing a list of report
records (the record loop of `buildProposals_`). -/
def pushedRequests (cidx : CatalogIndex)
    (apiPrices : String → Option (List (String × ℚ)))
    (respond : Payload → FetchResult) (base path : String)
    (cfg : PriceConfig) (doApply : Bool) (hasAllGb : Bool)
    (carrier carrierNorm whenTs : String) (recs : List ReportRecord) :
    List Payload :=
  recs.flatMap (fun rec =>
    (processRecord cidx apiPrices respond base path cfg doApply hasAllGb
      carrier carrierNorm whenTs rec).2)

/-! ## Standalone push script (`pushPrices`) -/

/-- Source `header.indexOf(name)`: first exact match (strict equality against the
string `name`); `none` models `-1`. -/
def pushHeaderIdx (header : List Cell) (name : String) : Option ℕ :=
  header.findIdx? (· = Cell.str name)

/-- What happened to one data row of the standalone script. -/
inductive RowAction where
  | skipped
  | pushed (payload : Payload) (result : FetchResult)
deriving DecidableEq, Repr

/-- The body of the standalone script's row loop:

```
if (!productId || !condition || !proposed) continue;
const price = Number(proposed);
if (isNaN(price)) continue;
... payload ...; try { fetch } catch { log }
```

Failures are logged and the loop continues, so each row yields exactly one
`RowAction`. -/
def processProposalRow (respond : Payload → FetchResult) (iP iC iPr : ℕ)
    (r : List Cell) : RowAction :=
  let productId := cellAt r iP
  let condition := cellAt r iC
  let proposed := cellAt r iPr
  if falsy productId || falsy condition || falsy proposed then .skipped
  else
    match jsNum proposed with
    | none => .skipped
    | some price =>
      let payload : Payload :=
        ⟨jsNum productId, [⟨condMap (cellStr condition), jsRound price, 1⟩]⟩
      .pushed payload (respond payload)

/-- Source `pushPrices()` of the standalone script: read rows, locate the three
required columns (error if any is missing), then process every data row.
`respond` is the HTTP collaborator. -/
def pushPrices (rows : List (List Cell)) (respond : Payload → FetchResult) :
    Except String (List RowAction) :=
  if rows.length < 2 then .ok []
  else
    match pushHeaderIdx (rows.headD []) "product_id",
          pushHeaderIdx (rows.headD []) "Condition",
          pushHeaderIdx (rows.headD []) "ProposedPrice" with
    | some iP, some iC, some iPr =>
      .ok ((rows.drop 1).map (processProposalRow respond iP iC iPr))
    | _, _, _ =>
      .error "Proposals tab missing required columns: product_id, Condition, ProposedPrice"

instance exceptDecEq {ε α : Type _} [DecidableEq ε] [DecidableEq α] :
    DecidableEq (Except ε α) := fun a b =>
  match a, b with
  | .ok a, .ok b =>
    if h : a = b then isTrue (by rw [h]) else
      isFalse (fun hc => h (Except.ok.inj hc))
  | .error a, .error b =>
    if h : a = b then isTrue (by rw [h]) else
      isFalse (fun hc => h (Except.error.inj hc))
  | .ok _, .error _ => isFalse Except.noConfusion
  | .error _, .ok _ => isFalse Except.noConfusion

/-- Source `pushPrices().catch(err => { ...; process.exit(1) })`: a thrown error
exits with code 1; normal completion exits with code 0. -/
def scriptExitCode {α : Type _} (r : Except String α) : ℕ :=
  match r with
  | .ok _ => 0
  | .error _ => 1

/-- The payloads actually sent in a list of row actions. -/
def sentPayloads (actions : List RowAction) : List Payload :=
  actions.flatMap (fun a =>
    match a with
    | .skipped => []
    | .pushed p _ => [p])

/-- A push attempt that failed (non-2xx response or transport error). -/
def isPushFailure (a : RowAction) : Bool :=
  match a with
  | .pushed _ (.response code _) => !(200 ≤ code && code < 300)
  | .pushed _ (.thrown _) => true
  | .skipped => false

/-! ### C3: no per-product aggregation of condition updates -/

theorem putPrice_requests (respond : Payload → FetchResult)
    (base path pid cond : String) (q : ℚ) :
    (putPrice_ respond base path pid cond q).2 = [] ∨
    (putPrice_ respond base path pid cond q).2 = [putPricePayload pid cond q] := by
  unfold putPrice_
  split
  · exact Or.inl rfl
  · split
    · exact Or.inr rfl
    · split
      · exact Or.inr rfl
      · exact Or.inr rfl

theorem pushStep_requests_len (respond : Payload → FetchResult)
    (base path : String) (doApply : Bool) (pid cond : String)
    (prop : Option ℚ) :
    (pushStep respond base path doApply pid cond prop).2.length ≤ 1 := by
  unfold pushStep
  split
  · split
    · rename_i q
      split
      · rcases putPrice_requests respond base path pid cond q with h | h <;> simp [h]
      · simp
    · simp
  · simp

theorem pushStep_requests_conditions (respond : Payload → FetchResult)
    (base path : String) (doApply : Bool) (pid cond : String)
    (prop : Option ℚ) (p : Payload)
    (hp : p ∈ (pushStep respond base path doApply pid cond prop).2) :
    p.conditions.length = 1 := by
  unfold pushStep at hp
  split at hp
  · split at hp
    · rename_i q
      split at hp
      · rcases putPrice_requests respond base path pid cond q with h | h <;>
          rw [h] at hp
        · simp at hp
        · rw [List.mem_singleton] at hp
          rw [hp]
          rfl
      · simp at hp
    · simp at hp
  · simp at hp

/-- A concrete catalog row used by the grouped-push counterexample. -/
def demoCatalogRow : CatalogRow :=
  ⟨.str "42", .str "Widget", .str "Verizon", .str "128GB",
   fun cond => if cond = "Mint" then .num 600
     else if cond = "Good" then .num 500 else .num 100⟩

/-- The catalog index of the demo catalog (all five price columns
present). -/
def demoCatalogIndex : CatalogIndex := buildCatalogIndex_ [demoCatalogRow] CONDITIONS

/-- Claim C3, counterexample.  In apply mode, two condition updates for the
same `product_id` (conditions Mint and Good of product 42) produce *two*
pricing-update requests, each with a single-element `conditions` list —
not one aggregated request. -/
theorem grouped_push_cex :
    pushedRequests demoCatalogIndex (fun _ => none)
        (fun _ => .response 200 "{}") "https://api" "/api/v2/admin/pricing"
        defaultPriceConfig true true "Verizon" "Verizon" "now"
        [⟨"Widget", "128GB", "Mint", .num 2, .num (-10)⟩,
         ⟨"Widget", "128GB", "Good", .num 2, .num (-10)⟩]
      = [⟨some 42, [⟨"Flawless", 591, 1⟩]⟩, ⟨some 42, [⟨"Good", 491, 1⟩]⟩] ∧
    (pushedRequests demoCatalogIndex (fun _ => none)
        (fun _ => .response 200 "{}") "https://api" "/api/v2/admin/pricing"
        defaultPriceConfig true true "Verizon" "Verizon" "now"
        [⟨"Widget", "128GB", "Mint", .num 2, .num (-10)⟩,
         ⟨"Widget", "128GB", "Good", .num 2, .num (-10)⟩]).length ≠ 1 := by
  with_unfolding_all decide

/-- Claim C3, amended.  Each processed report record issues at most one
pricing-update request, and every issued request carries exactly one
condition/price pair; hence `n` condition updates for the same product in
one run yield `n` separate single-condition requests, never one aggregated
request (aggregation exists only in the CSV exporter, not in the push
path). -/
theorem per_record_single_condition_requests :
    (∀ (cidx : CatalogIndex) (apiPrices : String → Option (List (String × ℚ)))
        (respond : Payload → FetchResult) (base path : String)
        (cfg : PriceConfig) (doApply : Bool) (hasAllGb : Bool)
        (carrier carrierNorm whenTs : String) (rec : ReportRecord),
      ((processRecord cidx apiPrices respond base path cfg doApply hasAllGb
          carrier carrierNorm whenTs rec).2).length ≤ 1) ∧
    (∀ (cidx : CatalogIndex) (apiPrices : String → Option (List (String × ℚ)))
        (respond : Payload → FetchResult) (base path : String)
        (cfg : PriceConfig) (doApply : Bool) (hasAllGb : Bool)
        (carrier carrierNorm whenTs : String) (recs : List ReportRecord)
        (p : Payload),
      p ∈ pushedRequests cidx apiPrices respond base path cfg doApply hasAllGb
          carrier carrierNorm whenTs recs →
      p.conditions.length = 1) := by
  constructor
  · intro cidx apiPrices respond base path cfg doApply hasAllGb carrier
      carrierNorm whenTs rec
    exact pushStep_requests_len respond base path doApply _ _ _
  · intro cidx apiPrices respond base path cfg doApply hasAllGb carrier
      carrierNorm whenTs recs p hp
    rw [pushedRequests, List.mem_flatMap] at hp
    obtain ⟨rec, _, hp⟩ := hp
    exact pushStep_requests_conditions respond base path doApply _ _ _ p hp

/-- Witness for `per_record_single_condition_requests` at the demo
scenario. -/
theorem per_record_single_condition_requests_witness :
    ((processRecord demoCatalogIndex (fun _ => none)
        (fun _ => .response 200 "{}") "https://api" "/api/v2/admin/pricing"
        defaultPriceConfig true true "Verizon" "Verizon" "now"
        ⟨"Widget", "128GB", "Mint", .num 2, .num (-10)⟩).2).length ≤ 1 ∧
    (⟨some 42, [⟨"Flawless", 591, 1⟩]⟩ : Payload).conditions.length = 1 :=
  ⟨per_record_single_condition_requests.1 demoCatalogIndex (fun _ => none)
      (fun _ => .response 200 "{}") "https://api" "/api/v2/admin/pricing"
      defaultPriceConfig true true "Verizon" "Verizon" "now"
      ⟨"Widget", "128GB", "Mint", .num 2, .num (-10)⟩,
   per_record_single_condition_requests.2 demoCatalogIndex (fun _ => none)
      (fun _ => .response 200 "{}") "https://api" "/api/v2/admin/pricing"
      defaultPriceConfig true true "Verizon" "Verizon" "now"
      [⟨"Widget", "128GB", "Mint", .num 2, .num (-10)⟩,
       ⟨"Widget", "128GB", "Good", .num 2, .num (-10)⟩]
      ⟨some 42, [⟨"Flawless", 591, 1⟩]⟩
      (by with_unfolding_all decide)⟩

/-! ### C4: rounding happens at push, not at proposal -/

/-- Claim C4, counterexample.  The policy engine does not round: on a
half-integral current price it proposes the non-integral value `5/2`, and
the push client does modify it (`Math.round` maps it to `3`). -/
theorem rounding_at_push_cex :
    computeNewPrice_ defaultPriceConfig (.num (3/2)) (.num 2) (.num 0) "Good"
      = ⟨some (5/2), "CHASE #1"⟩ ∧
    (5/2 : ℚ).den ≠ 1 ∧
    (putPricePayload "42" "Good" (5/2)).conditions = [⟨"Good", 3, 1⟩] ∧
    (3 : ℚ) ≠ 5/2 := by
  with_unfolding_all decide

/-- Claim C4, amended.  No rounding is performed at the point of proposal:
on numeric inputs the policy engine's proposed output is the exact
(possibly non-integral) arithmetic value.  Rounding to the nearest integer
is performed by the push client at the point of push (`Math.round` inside
the payload construction). -/
theorem rounding_at_push_amended :
    (∀ (pid cond : String) (q : ℚ),
      (putPricePayload pid cond q).conditions = [⟨condMap cond, jsRound q, 1⟩]) ∧
    (∀ (cfg : PriceConfig) (cur r d : ℚ) (cond : String),
      (computeNewPrice_ cfg (.num cur) (.num r) (.num d) cond).proposed
          = some (max 0 (cur + d - cfg.undercut)) ∨
      (computeNewPrice_ cfg (.num cur) (.num r) (.num d) cond).proposed
          = some (cur + d + cfg.bump) ∨
      (computeNewPrice_ cfg (.num cur) (.num r) (.num d) cond).proposed
          = some cur) := by
  constructor
  · intro pid cond q; rfl
  · intro cfg cur r d cond
    simp only [computeNewPrice_, jsNullableNum_num]
    split_ifs <;> simp

/-! ### C8: push failures do not fail the run -/

/-- Claim C8, counterexample.  A run whose single push attempt fails with a
500 response still completes and exits with code 0 — the claimed run-level
failure signal does not exist. -/
theorem push_failure_exit_zero_cex :
    pushPrices [[.str "product_id", .str "Condition", .str "ProposedPrice"],
                [.str "7", .str "Good", .str "100"]]
        (fun _ => .response 500 "boom")
      = .ok [.pushed ⟨some 7, [⟨"Good", 100, 1⟩]⟩ (.response 500 "boom")] ∧
    isPushFailure (.pushed ⟨some 7, [⟨"Good", 100, 1⟩]⟩ (.response 500 "boom"))
      = true ∧
    scriptExitCode (pushPrices
        [[.str "product_id", .str "Condition", .str "ProposedPrice"],
         [.str "7", .str "Good", .str "100"]]
        (fun _ => .response 500 "boom")) = 0 := by
  with_unfolding_all decide

/-- Claim C8, amended.  Push failures are logged per row and do not interrupt
the remaining rows, but they do not surface as a run-level failure either:
the exit code does not depend on the push outcomes at all (it is non-zero
only when reading/validating the sheet throws, e.g. for missing required
columns), and a successfully read sheet always yields one row action per
data row. -/
theorem push_failures_not_run_failure :
    (∀ (rows : List (List Cell)) (r1 r2 : Payload → FetchResult),
      scriptExitCode (pushPrices rows r1) = scriptExitCode (pushPrices rows r2)) ∧
    (∀ (rows : List (List Cell)) (respond : Payload → FetchResult)
        (log : List RowAction),
      pushPrices rows respond = .ok log → log.length = rows.length - 1) := by
  constructor
  · intro rows r1 r2
    unfold pushPrices
    split
    · rfl
    · cases pushHeaderIdx (rows.headD []) "product_id" <;>
        cases pushHeaderIdx (rows.headD []) "Condition" <;>
        cases pushHeaderIdx (rows.headD []) "ProposedPrice" <;> rfl
  · intro rows respond log h
    unfold pushPrices at h
    split at h
    · next hlen =>
      cases h
      simp only [List.length_nil]
      omega
    · split at h
      · cases h
        simp
      · exact Except.noConfusion h

/-- Witness for `push_failures_not_run_failure`: the failing-push run of
`push_failure_exit_zero_cex` has one log entry for its one data row. -/
theorem push_failures_not_run_failure_witness :
    scriptExitCode (pushPrices
        [[Cell.str "product_id", Cell.str "Condition", Cell.str "ProposedPrice"],
         [Cell.str "7", Cell.str "Good", Cell.str "100"]]
        (fun _ => .response 500 "boom"))
      = scriptExitCode (pushPrices
        [[Cell.str "product_id", Cell.str "Condition", Cell.str "ProposedPrice"],
         [Cell.str "7", Cell.str "Good", Cell.str "100"]]
        (fun _ => .response 200 "ok")) ∧
    ([RowAction.pushed ⟨some 7, [⟨"Good", 100, 1⟩]⟩
        (.response 500 "boom")] : List RowAction).length
      = ([[Cell.str "product_id", Cell.str "Condition", Cell.str "ProposedPrice"],
          [Cell.str "7", Cell.str "Good", Cell.str "100"]] :
            List (List Cell)).length - 1 :=
  ⟨push_failures_not_run_failure.1 _ _ _,
   push_failures_not_run_failure.2 _ (fun _ => .response 500 "boom") _
      (by with_unfolding_all decide)⟩

/-! ### C10: falsy row cells are skipped -/

/-- Claim C10.  A row of the standalone push script whose `product_id`,
`Condition` or `ProposedPrice` cell is JS-falsy — which includes the
number `0`, since the emptiness test is a falsiness test — is silently
skipped, and a skipped row contributes no pricing-update request. -/
theorem falsy_row_skipped :
    (∀ (respond : Payload → FetchResult) (iP iC iPr : ℕ) (r : List Cell),
      (falsy (cellAt r iP) || falsy (cellAt r iC) || falsy (cellAt r iPr)) = true →
      processProposalRow respond iP iC iPr r = .skipped) ∧
    falsy (Cell.num 0) = true ∧
    sentPayloads [RowAction.skipped] = [] := by
  refine ⟨?_, by decide, rfl⟩
  intro respond iP iC iPr r h
  unfold processProposalRow
  rw [if_pos h]

/-- Witness for `falsy_row_skipped`: a row whose proposed price is exactly
`0` is skipped. -/
theorem falsy_row_skipped_witness :
    processProposalRow (fun _ => .response 200 "") 0 1 2
      [Cell.str "5", Cell.str "Good", Cell.num 0] = .skipped :=
  falsy_row_skipped.1 (fun _ => .response 200 "") 0 1 2
    [Cell.str "5", Cell.str "Good", Cell.num 0] (by decide)

end ReuselyPricing
